import Mathlib

/-!
Shallow embedding of `src/lib.rs` of the subspedia-rs crate: a client
library for the subspedia JSON HTTP API.  The network is modelled as a
function from URL strings to transport outcomes; the JSON wire format is
modelled by an explicit `Json` value type, and serde-style structural
deserialization of the response records is spelled out field by field.
The Rust `usize` is modelled by `Nat` (URL ids and series ids never
overflow in the claims considered), Rust `String`/`&str` by Lean
`String`, and `Vec<T>` by `List T`.  `str::to_lowercase` is modelled by
per-character lowering on the character list of the string (the catalog
names and queries of the specification are basic latin, where the two
agree).  `Result<T, E>` is `Except E T`.
-/

namespace Subspedia

/-- Model of a displayed `hyper::Error` (transport failure cause). -/
structure HyperError where
  msg : String
deriving DecidableEq, Repr

/-- Model of a displayed `serde_json::Error` (parse failure cause). -/
structure JsonError where
  msg : String
deriving DecidableEq, Repr

/-- The error enumeration `FetchError` of `lib.rs`. -/
inductive FetchError where
  | Http (e : HyperError)
  | Json (e : JsonError)
  | NotFound (msg : String)
deriving DecidableEq, Repr

/-- The `Display` instance of `FetchError` derived by `failure_derive`
(`"HTTP error: {}"`, `"JSON parsing error: {}"`, `"{}"`). -/
def FetchError.display : FetchError → String
  | .Http e => "HTTP error: " ++ e.msg
  | .Json e => "JSON parsing error: " ++ e.msg
  | .NotFound m => m

/-- A JSON value, the shape a response body can take after lexing. -/
inductive Json where
  | null
  | bool (b : Bool)
  | num (n : Nat)
  | str (s : String)
  | arr (elems : List Json)
  | obj (fields : List (String × Json))

/-- A raw response body: either well-formed JSON or bytes that fail to
lex as JSON at all. -/
inductive Body where
  | json (j : Json)
  | malformed (raw : String)

/-- Outcome of one HTTP GET: a transport-level failure surfaced by the
hyper client, or a successful response with its fully concatenated
body. -/
inductive HttpResponse where
  | fail (e : HyperError)
  | success (body : Body)

/-- The network world: what one GET to a given URL returns. -/
def Net : Type := String → HttpResponse

/-- Serde-style deserialization of a JSON array elementwise, in order,
stopping at the first failing element (the behaviour of the derived
`Deserialize` of `Vec<T>`). -/
def deserArray (deser : Json → Except JsonError T) : List Json → Except JsonError (List T)
  | [] => Except.ok []
  | j :: js => do
    let x ← deser j
    let xs ← deserArray deser js
    Except.ok (x :: xs)

/-- Model of `serde_json::from_slice::<Vec<T>>` on a response body: the
body must lex as JSON and be an array whose elements all deserialize as
`T`. -/
def from_slice (deser : Json → Except JsonError T) : Body → Except JsonError (List T)
  | .malformed _ => Except.error ⟨"expected value"⟩
  | .json (Json.arr js) => deserArray deser js
  | .json _ => Except.error ⟨"invalid type: expected a sequence"⟩

/-- The fetch engine `fetch_json` of `lib.rs`: one GET to `url`, body
concatenation, then JSON parsing; a hyper error becomes
`FetchError::Http` (via `from_err`) and a serde_json error becomes
`FetchError::Json` (via the `?` conversion). -/
def fetch_json (deser : Json → Except JsonError T) (net : Net) (url : String) :
    Except FetchError (List T) :=
  match net url with
  | .fail e => Except.error (FetchError.Http e)
  | .success body =>
    match from_slice deser body with
    | .error e => Except.error (FetchError.Json e)
    | .ok xs => Except.ok xs

/-- The dispatch function `get` of `lib.rs`: runs `fetch_json` to
completion; on success the async task appends the parsed vector into the
`Arc<Mutex<Vec<_>>>` accumulator, on error it only prints the error
(see `get_stderr`) and leaves the accumulator empty; the content of
the accumulator is then returned inside `Ok` unconditionally. -/
def get (deser : Json → Except JsonError T) (net : Net) (url : String) :
    Except FetchError (List T) :=
  match fetch_json deser net url with
  | .ok xs => Except.ok xs
  | .error _ => Except.ok []

/-- What `get` writes to the error stream: the `map_err` arm of the
async task prints the display of the fetch error; nothing is printed on
success. -/
def get_stderr (deser : Json → Except JsonError T) (net : Net) (url : String) : List String :=
  match fetch_json deser net url with
  | .ok _ => []
  | .error e => [e.display]

/-- The record `Serie` of `lib.rs` (one entry of the full catalog). -/
structure Serie where
  id_serie : Nat
  nome_serie : String
  link_serie : String
  id_thetvdb : Nat
  stato : String
  anno : Nat
deriving DecidableEq, Repr

/-- Requires a JSON object and extracts a named field; a missing
required field is a serde error («missing field»). -/
def getField (fields : List (String × Json)) (name : String) : Except JsonError Json :=
  match fields.find? (fun f => f.1 == name) with
  | some f => Except.ok f.2
  | none => Except.error ⟨"missing field " ++ name⟩

/-- A field required to be an unsigned integer. -/
def asNat : Json → Except JsonError Nat
  | .num n => Except.ok n
  | _ => Except.error ⟨"invalid type: expected integer"⟩

/-- A field required to be a string. -/
def asStr : Json → Except JsonError String
  | .str s => Except.ok s
  | _ => Except.error ⟨"invalid type: expected string"⟩

/-- The derived `Deserialize` of `Serie`: a JSON object with the six
required fields, each of the declared primitive type; unknown fields
are ignored, a missing or mistyped field fails. -/
def deserSerie : Json → Except JsonError Serie
  | .obj fields => do
    let i ← asNat (← getField fields "id_serie")
    let n ← asStr (← getField fields "nome_serie")
    let l ← asStr (← getField fields "link_serie")
    let t ← asNat (← getField fields "id_thetvdb")
    let st ← asStr (← getField fields "stato")
    let a ← asNat (← getField fields "anno")
    Except.ok ⟨i, n, l, t, st, a⟩
  | _ => Except.error ⟨"invalid type: expected struct Serie"⟩

/-- The unit struct `ReqElencoSerie` (request for the full catalog). -/
structure ReqElencoSerie where

/-- Its `Request::url` implementation. -/
def ReqElencoSerie.url (_ : ReqElencoSerie) : String :=
  "https://www.subspedia.tv/API/elenco_serie"

/-- The unit struct `ReqSerieTraduzione` (series in translation). -/
structure ReqSerieTraduzione where

/-- Its `Request::url` implementation. -/
def ReqSerieTraduzione.url (_ : ReqSerieTraduzione) : String :=
  "https://www.subspedia.tv/API/serie_traduzione"

/-- The unit struct `ReqUltimiSottotitoli` (most recent subtitles). -/
structure ReqUltimiSottotitoli where

/-- Its `Request::url` implementation. -/
def ReqUltimiSottotitoli.url (_ : ReqUltimiSottotitoli) : String :=
  "https://www.subspedia.tv/API/ultimi_sottotitoli"

/-- The struct `ReqSottotitoliSerie` holding an owned series id. -/
structure ReqSottotitoliSerie where
  id : Nat

/-- Its constructor `ReqSottotitoliSerie::new`. -/
def ReqSottotitoliSerie.new (id : Nat) : ReqSottotitoliSerie := ⟨id⟩

/-- Its `Request::url` implementation:
`format!("https://www.subspedia.tv/API/sottotitoli_serie?serie=\x7b\x7d", self.id)`,
where `\x7b\x7d` formats the `usize` id in decimal (`Nat.repr`). -/
def ReqSottotitoliSerie.url (r : ReqSottotitoliSerie) : String :=
  "https://www.subspedia.tv/API/sottotitoli_serie?serie=" ++ Nat.repr r.id

/-- Model of Rust `str::contains` on char lists: `substrAux needle hay`
is true iff `needle` occurs contiguously in `hay`. -/
def substrAux (needle : List Char) : List Char → Bool
  | [] => needle.isEmpty
  | c :: cs => needle.isPrefixOf (c :: cs) || substrAux needle cs

/-- Rust `hay.contains(pat)` on char lists. -/
def strContains (hay pat : List Char) : Bool :=
  substrAux pat hay

/-- Model of Rust `str::to_lowercase`, lowering each character (the
basic latin range, on which Rust and this model agree). -/
def lowercase (s : String) : List Char :=
  s.toList.map Char.toLower

/-- The search operation `search_by_name` of `lib.rs`: fetches the full
catalog through `get`, keeps the entries whose lowercased name contains
the lowercased query, clones them, and returns them if any; otherwise a
`NotFound` naming the query. -/
def search_by_name (net : Net) (name : String) : Except FetchError (List Serie) :=
  match get deserSerie net (ReqElencoSerie.url ⟨⟩) with
  | .error e => Except.error e
  | .ok catalog =>
    let result := catalog.filter (fun s => strContains (lowercase s.nome_serie) (lowercase name))
    if !result.isEmpty then
      Except.ok result
    else
      Except.error (FetchError.NotFound ("Series with name " ++ name ++ " not found"))

/-- The search operation `search_by_id` of `lib.rs`: fetches the full
catalog through `get`, filters on exact id equality, and `pop`s the
collected vector, i.e. takes its last element; an empty filter result is
a `NotFound` naming the id. -/
def search_by_id (net : Net) (id : Nat) : Except FetchError Serie :=
  match get deserSerie net (ReqElencoSerie.url ⟨⟩) with
  | .error e => Except.error e
  | .ok catalog =>
    match (catalog.filter (fun s => s.id_serie == id)).getLast? with
    | some s => Except.ok s
    | none => Except.error (FetchError.NotFound ("Series with id " ++ Nat.repr id ++ " not found."))

/-- Matching predicate of the specification for name search: the query is
a contiguous substring of the entry name, compared case-insensitively. -/
def matchesQuery (name : String) (s : Serie) : Prop :=
  lowercase name <:+: lowercase s.nome_serie

instance (name : String) (s : Serie) : Decidable (matchesQuery name s) :=
  List.decidableInfix _ _

/-- JSON encoding of one catalog entry, with exactly the six declared
fields; used to build concrete response bodies in witnesses. -/
def serieJson (s : Serie) : Json :=
  Json.obj [("id_serie", Json.num s.id_serie),
            ("nome_serie", Json.str s.nome_serie),
            ("link_serie", Json.str s.link_serie),
            ("id_thetvdb", Json.num s.id_thetvdb),
            ("stato", Json.str s.stato),
            ("anno", Json.num s.anno)]

/-- A well-formed full-catalog response body for a given catalog. -/
def catalogBody (l : List Serie) : Body :=
  Body.json (Json.arr (l.map serieJson))

/-- A network world whose every endpoint returns the given catalog. -/
def catalogNet (l : List Serie) : Net :=
  fun _ => HttpResponse.success (catalogBody l)


/-- A concrete catalog entry used by witnesses. -/
def breakingBad : Serie := ⟨42, "Breaking Bad", "link-bb", 81189, "completa", 2008⟩

/-- A second concrete entry sharing id 42, appearing later in witnesses. -/
def betterCallSaul : Serie := ⟨42, "Better Call Saul", "link-bcs", 273181, "completa", 2015⟩

/-- A concrete entry with a distinct id and a name matching no witness query. -/
def dark : Serie := ⟨7, "Dark", "link-dark", 332484, "completa", 2017⟩

/-- Boolean substring search agrees with contiguous-sublist containment. -/
theorem substrAux_iff (p l : List Char) : substrAux p l = true ↔ p <:+: l := by
  induction l with
  | nil => simp [substrAux, List.isEmpty_iff, List.infix_nil]
  | cons c cs ih => simp [substrAux, List.infix_cons_iff, ih]

/-- The model of Rust `str::contains` agrees with contiguous-sublist
containment. -/
theorem strContains_iff (hay pat : List Char) :
    strContains hay pat = true ↔ pat <:+: hay :=
  substrAux_iff _ _

/-- Dispatch never returns an error: whatever the fetch outcome, `get`
produces an `Ok` value. -/
theorem get_eq_ok {T : Type} (deser : Json → Except JsonError T) (net : Net) (url : String) :
    ∃ xs, get deser net url = Except.ok xs := by
  cases h : fetch_json deser net url <;> simp [get, h]

/-- Deserialization is a left inverse of the witness JSON encoding of a
catalog entry. -/
theorem deserSerie_serieJson (s : Serie) : deserSerie (serieJson s) = Except.ok s := rfl

/-- Elementwise deserialization recovers an encoded catalog. -/
theorem deserArray_map_serieJson (l : List Serie) :
    deserArray deserSerie (l.map serieJson) = Except.ok l := by
  induction l with
  | nil => rfl
  | cons s t ih => simp [deserArray, deserSerie_serieJson, ih]; rfl

/-- Dispatch on a well-formed catalog response returns the catalog. -/
theorem get_catalogNet (l : List Serie) (url : String) :
    get deserSerie (catalogNet l) url = Except.ok l := by
  simp [get, fetch_json, catalogNet, catalogBody, from_slice, deserArray_map_serieJson]

/-- C1: the specification requires that on a malformed JSON body (here a
bare JSON string instead of an array of objects) the dispatch `get`
return a Json-kind error and not an empty success.  The fetch engine
does produce the Json-kind error, but `get` swallows it and returns a
successful empty sequence: the code contradicts the claim (and its own
doc comment "Returns error if something gone wrong ... parsing json"). -/
theorem C1_get_swallows_malformed_json :
    fetch_json deserSerie (fun _ => HttpResponse.success (Body.json (Json.str "oops")))
        (ReqElencoSerie.url ⟨⟩)
      = Except.error (FetchError.Json ⟨"invalid type: expected a sequence"⟩)
    ∧ get deserSerie (fun _ => HttpResponse.success (Body.json (Json.str "oops")))
        (ReqElencoSerie.url ⟨⟩)
      = Except.ok [] := ⟨rfl, rfl⟩

/-- C2: the specification requires that on a transport failure the
dispatch `get` return an Http-kind error.  The fetch engine does produce
the Http-kind error, but `get` swallows it and returns a successful
empty sequence: the code contradicts the claim (and its own doc
comment). -/
theorem C2_get_swallows_http_failure :
    fetch_json deserSerie (fun _ => HttpResponse.fail ⟨"connection refused"⟩)
        (ReqElencoSerie.url ⟨⟩)
      = Except.error (FetchError.Http ⟨"connection refused"⟩)
    ∧ get deserSerie (fun _ => HttpResponse.fail ⟨"connection refused"⟩)
        (ReqElencoSerie.url ⟨⟩)
      = Except.ok [] := ⟨rfl, rfl⟩

/-- C3: whenever the inner fetch of a dispatch call fails, the failure
is only written to the error stream, the accumulator stays empty, and
the call returns a successful empty sequence rather than an error. -/
theorem C3_failed_fetch_logged_and_empty_success {T : Type}
    (deser : Json → Except JsonError T) (net : Net) (url : String) (e : FetchError)
    (h : fetch_json deser net url = Except.error e) :
    get deser net url = Except.ok [] ∧ get_stderr deser net url = [e.display] := by
  constructor <;> simp [get, get_stderr, h]

/-- Witness for C3 at a body that fails to lex as JSON. -/
theorem C3_failed_fetch_witness :
    get deserSerie (fun _ => HttpResponse.success (Body.malformed "not json")) "u" = Except.ok []
    ∧ get_stderr deserSerie (fun _ => HttpResponse.success (Body.malformed "not json")) "u"
      = [(FetchError.Json ⟨"expected value"⟩).display] :=
  C3_failed_fetch_logged_and_empty_success deserSerie _ _ _ rfl

/-- C4: if the fetched catalog contains at least one entry with the
queried id, `search_by_id` returns the last such entry in catalog
order. -/
theorem C4_search_by_id_returns_last_match (net : Net) (id : Nat)
    (catalog l₁ l₂ : List Serie) (s : Serie)
    (hget : get deserSerie net (ReqElencoSerie.url ⟨⟩) = Except.ok catalog)
    (hcat : catalog = l₁ ++ s :: l₂)
    (hs : s.id_serie = id)
    (hl : ∀ t ∈ l₂, t.id_serie ≠ id) :
    search_by_id net id = Except.ok s := by
  have h₂ : l₂.filter (fun t => t.id_serie == id) = [] := by
    rw [List.filter_eq_nil_iff]
    intro t ht
    simpa using hl t ht
  have hfilter : catalog.filter (fun t => t.id_serie == id)
      = (l₁.filter (fun t => t.id_serie == id)) ++ [s] := by
    subst hcat
    rw [List.filter_append, List.filter_cons]
    simp [hs, h₂]
  simp [search_by_id, hget, hfilter, List.getLast?_concat]

/-- Witness for C4: two entries share id 42 and the later one is
returned. -/
theorem C4_last_match_witness :
    search_by_id (catalogNet [breakingBad, betterCallSaul]) 42 = Except.ok betterCallSaul :=
  C4_search_by_id_returns_last_match _ 42 _ [breakingBad] [] _ rfl rfl rfl (by simp)

/-- C5: if no entry of the fetched catalog carries the queried id,
`search_by_id` fails with a NotFound error whose message contains the
decimal representation of the id. -/
theorem C5_search_by_id_not_found (net : Net) (id : Nat) (catalog : List Serie)
    (hget : get deserSerie net (ReqElencoSerie.url ⟨⟩) = Except.ok catalog)
    (h : ∀ s ∈ catalog, s.id_serie ≠ id) :
    ∃ msg, search_by_id net id = Except.error (FetchError.NotFound msg)
      ∧ (Nat.repr id).toList <:+: msg.toList := by
  have h₂ : catalog.filter (fun t => t.id_serie == id) = [] := by
    rw [List.filter_eq_nil_iff]
    intro t ht
    simpa using h t ht
  refine ⟨"Series with id " ++ Nat.repr id ++ " not found.", ?_, ?_⟩
  · simp [search_by_id, hget, h₂]
  · exact ⟨"Series with id ".toList, " not found.".toList, by simp⟩

/-- Witness for C5 at id 7 against a catalog holding only id 42. -/
theorem C5_not_found_witness :
    ∃ msg, search_by_id (catalogNet [breakingBad]) 7 = Except.error (FetchError.NotFound msg)
      ∧ (Nat.repr 7).toList <:+: msg.toList :=
  C5_search_by_id_not_found _ 7 [breakingBad] rfl (by decide)

/-- C6: `search_by_name` returns exactly the catalog entries whose name
contains the query as a substring under case-insensitive comparison when
some entry matches, and otherwise fails with a NotFound error naming the
query. -/
theorem C6_search_by_name_characterization (net : Net) (name : String) (catalog : List Serie)
    (hget : get deserSerie net (ReqElencoSerie.url ⟨⟩) = Except.ok catalog) :
    ((∃ s ∈ catalog, matchesQuery name s) →
        search_by_name net name
          = Except.ok (catalog.filter (fun s => decide (matchesQuery name s))))
    ∧ ((∀ s ∈ catalog, ¬ matchesQuery name s) →
        search_by_name net name
          = Except.error (FetchError.NotFound ("Series with name " ++ name ++ " not found"))) := by
  have hpred : ∀ s ∈ catalog,
      strContains (lowercase s.nome_serie) (lowercase name) = decide (matchesQuery name s) := by
    intro s _
    rw [Bool.eq_iff_iff, strContains_iff, decide_eq_true_iff]
    exact Iff.rfl
  have hfe : catalog.filter (fun s => strContains (lowercase s.nome_serie) (lowercase name))
      = catalog.filter (fun s => decide (matchesQuery name s)) :=
    List.filter_congr hpred
  constructor
  · rintro ⟨s, hs, hm⟩
    have hmem : s ∈ catalog.filter (fun s => decide (matchesQuery name s)) :=
      List.mem_filter.mpr ⟨hs, by simpa using hm⟩
    have hne : (catalog.filter (fun s => decide (matchesQuery name s))).isEmpty = false :=
      List.isEmpty_eq_false.mpr (List.ne_nil_of_mem hmem)
    simp [search_by_name, hget, hfe, hne]
  · intro h
    have hnil : catalog.filter (fun s => decide (matchesQuery name s)) = [] := by
      rw [List.filter_eq_nil_iff]
      intro s hs
      simpa using h s hs
    simp [search_by_name, hget, hfe, hnil]

/-- Witness for C6: the entry named "Breaking Bad" is returned for the
queries "breaking", "BREAKING" and "Bad", and a query matching nothing
yields NotFound naming the query. -/
theorem C6_case_insensitive_witness :
    search_by_name (catalogNet [breakingBad, dark]) "breaking"
      = Except.ok (([breakingBad, dark]).filter (fun s => decide (matchesQuery "breaking" s)))
    ∧ search_by_name (catalogNet [breakingBad, dark]) "BREAKING"
      = Except.ok (([breakingBad, dark]).filter (fun s => decide (matchesQuery "BREAKING" s)))
    ∧ search_by_name (catalogNet [breakingBad, dark]) "Bad"
      = Except.ok (([breakingBad, dark]).filter (fun s => decide (matchesQuery "Bad" s)))
    ∧ search_by_name (catalogNet [breakingBad, dark]) "zzz"
      = Except.error (FetchError.NotFound ("Series with name " ++ "zzz" ++ " not found")) :=
  ⟨(C6_search_by_name_characterization (catalogNet [breakingBad, dark]) "breaking"
      [breakingBad, dark] rfl).1 (by decide),
   (C6_search_by_name_characterization (catalogNet [breakingBad, dark]) "BREAKING"
      [breakingBad, dark] rfl).1 (by decide),
   (C6_search_by_name_characterization (catalogNet [breakingBad, dark]) "Bad"
      [breakingBad, dark] rfl).1 (by decide),
   (C6_search_by_name_characterization (catalogNet [breakingBad, dark]) "zzz"
      [breakingBad, dark] rfl).2 (by decide)⟩

/-- C7: on a non-empty fetched catalog, the empty query matches every
entry and `search_by_name ""` returns the entire catalog. -/
theorem C7_empty_query_returns_catalog (net : Net) (catalog : List Serie)
    (hget : get deserSerie net (ReqElencoSerie.url ⟨⟩) = Except.ok catalog)
    (hne : catalog ≠ []) :
    search_by_name net "" = Except.ok catalog := by
  have hall : catalog.filter (fun s => strContains (lowercase s.nome_serie) (lowercase "")) = catalog := by
    rw [List.filter_eq_self]
    intro s _
    rw [strContains_iff]
    exact ⟨[], lowercase s.nome_serie, by simp [lowercase]⟩
  simp [search_by_name, hget, hall, List.isEmpty_eq_false.mpr hne]

/-- Witness for C7 on a two-entry catalog. -/
theorem C7_empty_query_witness :
    search_by_name (catalogNet [breakingBad, dark]) "" = Except.ok [breakingBad, dark] :=
  C7_empty_query_returns_catalog _ [breakingBad, dark] rfl (by decide)

/-- C8: the URL of `ReqSottotitoliSerie::new(id)` is the fixed base path
followed by one query parameter whose value is the decimal
representation of the stored id; `url` is a pure function of that id. -/
theorem C8_sottotitoli_serie_url (id : Nat) :
    (ReqSottotitoliSerie.new id).url
      = "https://www.subspedia.tv/API/sottotitoli_serie" ++ "?serie=" ++ Nat.repr id := rfl

/-- C9: every error escaping the public search operations is of the
NotFound kind, never Http or Json; in particular, when the dispatch
returns the empty sequence (as it does after any fetch failure, by the
defect of `get`), both search operations fail with NotFound. -/
theorem C9_search_errors_are_not_found (net : Net) (name : String) (id : Nat) :
    (∀ e, search_by_name net name = Except.error e → ∃ msg, e = FetchError.NotFound msg)
    ∧ (∀ e, search_by_id net id = Except.error e → ∃ msg, e = FetchError.NotFound msg)
    ∧ (get deserSerie net (ReqElencoSerie.url ⟨⟩) = Except.ok [] →
        search_by_name net name
          = Except.error (FetchError.NotFound ("Series with name " ++ name ++ " not found"))
        ∧ search_by_id net id
          = Except.error (FetchError.NotFound ("Series with id " ++ Nat.repr id ++ " not found."))) := by
  obtain ⟨xs, hxs⟩ := get_eq_ok deserSerie net (ReqElencoSerie.url ⟨⟩)
  refine ⟨?_, ?_, ?_⟩
  · intro e he
    simp only [search_by_name, hxs] at he
    split at he
    · exact absurd he (by simp)
    · exact ⟨_, (Except.error.inj he).symm⟩
  · intro e he
    simp only [search_by_id, hxs] at he
    split at he
    · exact absurd he (by simp)
    · exact ⟨_, (Except.error.inj he).symm⟩
  · intro h
    constructor
    · simp [search_by_name, h]
    · simp [search_by_id, h]

/-- Witness for C9 after a transport failure that `get` turns into an
empty catalog. -/
theorem C9_not_found_witness :
    search_by_name (fun _ => HttpResponse.fail ⟨"connection reset"⟩) "x"
      = Except.error (FetchError.NotFound ("Series with name " ++ "x" ++ " not found"))
    ∧ search_by_id (fun _ => HttpResponse.fail ⟨"connection reset"⟩) 3
      = Except.error (FetchError.NotFound ("Series with id " ++ Nat.repr 3 ++ " not found.")) :=
  (C9_search_errors_are_not_found _ "x" 3).2.2 rfl

/-- C10: a successful `search_by_name` result is a sublist of the
fetched catalog: it preserves relative order and contains only entries
of the catalog. -/
theorem C10_search_by_name_sublist (net : Net) (name : String) (catalog result : List Serie)
    (hget : get deserSerie net (ReqElencoSerie.url ⟨⟩) = Except.ok catalog)
    (hok : search_by_name net name = Except.ok result) :
    result.Sublist catalog := by
  simp only [search_by_name, hget] at hok
  split at hok
  · cases hok
    exact List.filter_sublist _
  · exact absurd hok (by simp)

/-- Witness for C10: the result for query "Bad" is a strict sublist of
the two-entry catalog. -/
theorem C10_sublist_witness : List.Sublist [breakingBad] [breakingBad, dark] :=
  C10_search_by_name_sublist (catalogNet [breakingBad, dark]) "Bad" _ [breakingBad] rfl rfl

end Subspedia
